import Mathlib

/-!
Shallow embedding of the MapComplete-MQTT statistics engine.

The definitions below are translated from the TypeScript source of the
repository: `src/Helpers.ts`, `src/MapComplete.ts`, `src/index.ts` and
`src/HomeAssistant.ts`.  JavaScript/Node peculiarities that the code relies
on (first-occurrence `String.prototype.replace`, `parseInt` returning `NaN`,
`NaN` propagation through `+`, template interpolation of `null`, the
`getDate()` day-of-month comparison) are modelled explicitly.  Strings are
modelled through their character lists; JS objects used as ordered maps are
modelled as association lists in insertion order (integer-like keys, which
JS would iterate first, do not occur in the scenarios covered by the
claims).
-/

namespace MCMqtt

/-- Model of an OSMCha changeset as consumed by the program: `id`,
`properties.uid`, `properties.user` and the `properties.metadata`
string-to-string map (insertion-ordered association list).  All other
fields of the API payload are never read by the code under study. -/
structure Changeset where
  id : Nat
  uid : String
  user : String
  metadata : List (String × String)
deriving DecidableEq, Repr

/-- Character-list model of JavaScript `String.prototype.replace` for a
single-character search string: only the FIRST occurrence is replaced. -/
def replaceFirstChar : List Char → Char → Char → List Char
  | [], _, _ => []
  | c :: cs, target, rep =>
    if c = target then rep :: cs else c :: replaceFirstChar cs target rep

/-- Model of `Helpers.cleanThemeName` (src/Helpers.ts:42-45):
`name.replace("/", "_")`.  JS `replace` with a string pattern replaces only
the first occurrence. -/
def cleanThemeName (name : String) : String :=
  ⟨replaceFirstChar name.data '/' '_'⟩

/-- Model of JavaScript `Array.prototype.join` / `Math.max` based maximum of
a list of numbers: `Math.max(...values)`, `none` for the empty spread
(where JS yields `-Infinity`; the empty case is only reached with an empty
record, where the key filter below selects nothing either way). -/
def jsMax : List Int → Option Int
  | [] => none
  | v :: vs => some (vs.foldl max v)

/-- Model of `Helpers.findTop` (src/Helpers.ts:26-34): the key with the
highest value, or all tied keys joined with a comma and space, in the
iteration order of the record (modelled as the order of the association
list). -/
def findTop (item : List (String × Int)) : String :=
  let highest := jsMax (item.map (fun p => p.2))
  let keys := (item.filter (fun p => some p.2 = highest)).map (fun p => p.1)
  if keys.length = 1 then keys.headD "" else String.intercalate ", " keys

/-- JS whitespace test used by `parseInt` (the common subset relevant
here). -/
def jsWhitespace (c : Char) : Bool :=
  c = ' ' || c = '\t' || c = '\n' || c = '\r'

/-- Numeric value of a decimal digit list, most significant first. -/
def digitsToNat (cs : List Char) : Nat :=
  cs.foldl (fun a c => a * 10 + (c.toNat - 48)) 0

/-- Hexadecimal digit value, `none` for a non-hex character. -/
def hexDigitVal (c : Char) : Option Nat :=
  if '0' ≤ c ∧ c ≤ '9' then some (c.toNat - 48)
  else if 'a' ≤ c ∧ c ≤ 'f' then some (c.toNat - 87)
  else if 'A' ≤ c ∧ c ≤ 'F' then some (c.toNat - 55)
  else none

/-- Value of a hex digit list, most significant first. -/
def hexDigitsToNat (cs : List Char) : Nat :=
  cs.foldl (fun a c => a * 16 + (hexDigitVal c).getD 0) 0

/-- Model of radix-less JavaScript `parseInt(s)`: skip leading whitespace,
optional sign, then either an auto-detected `0x`/`0X` prefix followed by
the longest prefix of hex digits, or the longest prefix of decimal digits;
`none` models the `NaN` result when no digit is found.  Trailing garbage is
ignored, exactly as in JS. -/
def parseIntJS (s : String) : Option Int :=
  let cs := s.data.dropWhile jsWhitespace
  let signAndRest : Int × List Char :=
    match cs with
    | '-' :: r => (-1, r)
    | '+' :: r => (1, r)
    | r => (1, r)
  match signAndRest.2 with
  | '0' :: 'x' :: r =>
    let ds := r.takeWhile (fun c => (hexDigitVal c).isSome)
    if ds.isEmpty then none else some (signAndRest.1 * (hexDigitsToNat ds : Int))
  | '0' :: 'X' :: r =>
    let ds := r.takeWhile (fun c => (hexDigitVal c).isSome)
    if ds.isEmpty then none else some (signAndRest.1 * (hexDigitsToNat ds : Int))
  | _ =>
    let ds := signAndRest.2.takeWhile Char.isDigit
    if ds.isEmpty then none else some (signAndRest.1 * (digitsToNat ds : Int))

/-- Model of JavaScript `parseInt(s, 16)`: skip whitespace, optional sign,
optional `0x`/`0X` prefix, then the longest prefix of hex digits; `none`
models `NaN`.  (Double rounding above 2^53 is not modelled; the code only
parses 6-digit colors.) -/
def parseIntJS16 (s : String) : Option Int :=
  let cs := s.data.dropWhile jsWhitespace
  let signAndRest : Int × List Char :=
    match cs with
    | '-' :: r => (-1, r)
    | '+' :: r => (1, r)
    | r => (1, r)
  let body : List Char :=
    match signAndRest.2 with
    | '0' :: 'x' :: r => r
    | '0' :: 'X' :: r => r
    | r => r
  let ds := body.takeWhile (fun c => (hexDigitVal c).isSome)
  if ds.isEmpty then none else some (signAndRest.1 * (hexDigitsToNat ds : Int))

/-- Removal of the first occurrence of a character, modelling
`hex.replace("#", "")`. -/
def removeFirstChar : List Char → Char → List Char
  | [], _ => []
  | c :: cs, target => if c = target then cs else c :: removeFirstChar cs target

/-- Model of `Helpers.hexToRgb` (src/Helpers.ts:11-18):
`parseInt(hex.replace("#", ""), 16)` followed by the bit extractions
`(n >> 16) & 255`, `(n >> 8) & 255`, `n & 255`.  JS bitwise operators
coerce `NaN` to 0 and truncate to 32 bits; this is modelled by `getD 0`
and the reduction modulo 2^32. -/
def hexToRgb (hex : String) : Nat × Nat × Nat :=
  let n : Int := (parseIntJS16 ⟨removeFirstChar hex.data '#'⟩).getD 0
  let u : Nat := (n % ((2 : Int) ^ 32)).toNat
  ((u / 2 ^ 16) % 256, (u / 2 ^ 8) % 256, u % 256)

/-! Ingestion of fetched changesets (src/index.ts:129-141): for each incoming
changeset, skip it if a changeset with the same id is already in the array,
otherwise push it at the end; afterwards sort the whole array ascending by
id (`mapCompleteChangesets.sort((a, b) => a.id - b.id)`). -/

/-- One step of the ingestion loop body (src/index.ts:129-138). -/
def ingestOne (acc : List Changeset) (c : Changeset) : List Changeset :=
  if acc.any (fun x => x.id = c.id) then acc else acc ++ [c]

/-- Comparator relation of `sort((a, b) => a.id - b.id)`: ascending by id. -/
def idLe (a b : Changeset) : Prop := a.id ≤ b.id

instance : DecidableRel idLe := fun a b => Nat.decLe a.id b.id

instance : IsTotal Changeset idLe := ⟨fun a b => Nat.le_total a.id b.id⟩

instance : IsTrans Changeset idLe := ⟨fun _ _ _ h1 h2 => Nat.le_trans h1 h2⟩

/-- The sort step (src/index.ts:141).  JS `Array.prototype.sort` with the
comparator `a.id - b.id` is a stable comparison sort; insertion sort is one
such sort, and on arrays with pairwise distinct ids (the only states the
program reaches) every such sort produces the same, unique result. -/
def sortById (l : List Changeset) : List Changeset :=
  List.insertionSort idLe l

/-- Whole ingestion pass (src/index.ts:129-141): fold the dedup-push loop
over the fetched changesets starting from the stored array, then sort. -/
def ingest (prior fetched : List Changeset) : List Changeset :=
  sortById (fetched.foldl ingestOne prior)

/-! Day rollover (src/index.ts:99-111).  `lastUpdateTime` is a JS timestamp;
the code compares `new Date(lastUpdateTime).getDate()` with
`new Date().getDate()` — the day-of-month components only — and on a
mismatch clears the changeset array, resets `lastUpdateTime` to
`new Date().setHours(0, 0, 0, 0)` (midnight of the current day) and flags
`newDay`.  Timestamps are modelled in broken-down form (UTC, as configured
by the program): calendar date plus milliseconds within the day. -/

/-- Broken-down UTC time: the calendar date and the time of day in
milliseconds.  `day` is the day of the month, i.e. what `getDate()`
returns. -/
structure JsTime where
  year : Nat
  month : Nat
  day : Nat
  msInDay : Nat
deriving DecidableEq, Repr

/-- Model of `new Date(t).setHours(0, 0, 0, 0)`: midnight of the day of
`t`. -/
def startOfDay (t : JsTime) : JsTime := { t with msInDay := 0 }

/-- The calendar date of a time, used to state what "the calendar day has
advanced" means. -/
def dateOf (t : JsTime) : Nat × Nat × Nat := (t.year, t.month, t.day)

/-- The mutable state read and written by the rollover check:
`lastUpdateTime` and `mapCompleteChangesets` (src/index.ts:45-46). -/
structure UpdateState where
  lastUpdateTime : JsTime
  changesets : List Changeset
deriving DecidableEq, Repr

/-- Model of the rollover check at the top of `update`
(src/index.ts:99-111): if the day-of-month of the stored time differs from
the day-of-month of the current time, clear the changesets, reset the
stored time to midnight of the current day and return `newDay = true`;
otherwise leave the state unchanged. -/
def rolloverStep (now : JsTime) (st : UpdateState) : UpdateState × Bool :=
  if st.lastUpdateTime.day ≠ now.day then
    ({ lastUpdateTime := startOfDay now, changesets := [] }, true)
  else (st, false)

/-! Numeric metadata rollups (src/MapComplete.ts:255-292).  Each rollup is a
`reduce` that skips changesets without the field and otherwise adds
`parseInt(value)` to the accumulator.  JS numbers carry `NaN`:
`parseInt` of a digit-free string is `NaN` and `acc + NaN` is `NaN`, so one
unparsable value poisons the whole sum.  `Option Int` models a JS number
with `none` as `NaN`. -/

/-- The body of the rollup `reduce`s (src/MapComplete.ts:256-266 and the
two analogous folds): `undefined` fields are skipped, every other value
goes through `parseInt` and is added, `NaN` propagating through the
addition. -/
def rollupStep (field : String) (acc : Option Int) (cur : Changeset) : Option Int :=
  match cur.metadata.lookup field with
  | none => acc
  | some v =>
    match acc, parseIntJS v with
    | some a, some n => some (a + n)
    | _, _ => none

/-- Model of one of the three rollup `reduce`s of `getStatistics`
(src/MapComplete.ts:255-292), for the metadata field `field` ("answer",
"add-image" or "create"). -/
def metaRollup (field : String) (changesets : List Changeset) : Option Int :=
  changesets.foldl (rollupStep field) (some 0)

/-- Modelled from the spec: the rollup as the specification words it — the
sum over all changesets of the optional counter, "treating a missing field
as 0, parsed as integer", with an unparsable value also contributing 0.
This definition exists only to be compared with `metaRollup`, which is the
translation of the code. -/
def rollupSpec (field : String) (changesets : List Changeset) : Int :=
  (changesets.map
    (fun c =>
      match c.metadata.lookup field with
      | none => 0
      | some v => (parseIntJS v).getD 0)).sum

/-! Derived statistics (src/MapComplete.ts:189-363).  The JS records
`users` and `themes` are insertion-ordered objects; they are modelled as
association lists built in encounter order and then stably sorted by count
descending, exactly like `Object.entries(..).sort(([, a], [, b]) => b - a)`
(stable in JS). -/

/-- One step of the counting `reduce` (src/MapComplete.ts:199-207 and
215-225): create the key with value 0 when absent, then increment it. -/
def bump (acc : List (String × Int)) (k : String) : List (String × Int) :=
  if acc.any (fun p => p.1 = k) then
    acc.map (fun p => if p.1 = k then (p.1, p.2 + 1) else p)
  else acc ++ [(k, 1)]

/-- The per-key count record over a list of changesets, in encounter
order. -/
def countsBy (key : Changeset → String) (cs : List Changeset) : List (String × Int) :=
  cs.foldl (fun acc c => bump acc (key c)) []

/-- Comparator relation for `sort(([, a], [, b]) => b - a)`: by count,
descending. -/
def countGe (p q : String × Int) : Prop := q.2 ≤ p.2

instance : DecidableRel countGe := fun p q => Int.decLe q.2 p.2

instance : IsTotal (String × Int) countGe := ⟨fun p q => Int.le_total q.2 p.2⟩

instance : IsTrans (String × Int) countGe := ⟨fun _ _ _ h1 h2 => Int.le_trans h2 h1⟩

/-- Stable descending-by-count sort of a count record
(src/MapComplete.ts:209 and 227). -/
def sortByCountDesc (l : List (String × Int)) : List (String × Int) :=
  List.insertionSort countGe l

/-- The record key taken from `properties.user`. -/
def userKey (c : Changeset) : String := c.user

/-- The record key taken from `properties.metadata["theme"]`.  A changeset
with no `theme` entry yields the JS property key `"undefined"` (an
`undefined` index is stringified when used as an object key). -/
def themeKey (c : Changeset) : String :=
  (c.metadata.lookup "theme").getD "undefined"

/-- Return value of theme-detail resolution
(src/MapComplete.ts:103-107). -/
structure ThemeDetails where
  color : String
  icon : String
  name : String
deriving DecidableEq, Repr

/-- JS template interpolation of a possibly-`null` number, as in
`https://osm.org/changeset/${lastId}`: `null` prints as "null". -/
def jsStrOfOptNat : Option Nat → String
  | some n => toString n
  | none => "null"

/-- String form of an RGB triple as produced by JS
`Array.prototype.join(",")` on nested arrays (each inner array is
stringified as `r,g,b`). -/
def rgbStr (t : Nat × Nat × Nat) : String :=
  toString t.1 ++ "," ++ toString t.2.1 ++ "," ++ toString t.2.2

/-- The fields of the `Statistics` object (src/MapComplete.ts:10-63)
needed by the claims, with the two nesting levels of the source flattened
into prefixed names (`users.total` becomes `usersTotal`, and so on).  The
per-changeset summary list (`changesets.changesets`) is not read by any
claim and is omitted. -/
structure Statistics where
  total : Nat
  last : Option Nat
  lastUrl : String
  lastColor : Option String
  lastColorRgb : Option (Nat × Nat × Nat)
  colors : List String
  colorsStr : String
  colorsRgbStr : String
  usersTotal : Nat
  usersTop : String
  usersLast : Option String
  users : List (String × Int)
  themesTotal : Nat
  themesTop : String
  themesLast : Option String
  themes : List (String × Int)
  questions : Option Int
  images : Option Int
  points : Option Int
deriving DecidableEq, Repr

/-- Model of `MapComplete.getStatistics` (src/MapComplete.ts:189-363).  Theme
resolution is abstracted by `resolve`: in the source the colors loop calls
`getThemeDetails` (network plus cache); `none` models the thrown-and-caught
case at src/MapComplete.ts:249-252, where the changeset is skipped and
contributes no entry to `colors`.  `lastColor` is `colors[colors.length-1]`,
which is `undefined` (here: `none`) when every resolution failed; in that
corner the source would then throw inside `hexToRgb`, a state the model
renders as `none` and which the theorems below exclude by hypothesis. -/
def getStatistics (resolve : Changeset → Option ThemeDetails)
    (changesets : List Changeset) : Statistics :=
  let userCount := (changesets.map (fun c => c.uid)).dedup.length
  let users := sortByCountDesc (countsBy userKey changesets)
  let themeCount := (changesets.map (fun c => c.metadata.lookup "theme")).dedup.length
  let themes := sortByCountDesc (countsBy themeKey changesets)
  let colors := changesets.filterMap (fun c => (resolve c).map (fun d => d.color))
  let lastC := changesets.getLast?
  let lastId := lastC.map (fun c => c.id)
  let lastColor := match lastC with
    | some _ => colors.getLast?
    | none => none
  { total := changesets.length
    last := lastId
    lastUrl := "https://osm.org/changeset/" ++ jsStrOfOptNat lastId
    lastColor := lastColor
    lastColorRgb := lastColor.map hexToRgb
    colors := colors
    colorsStr := String.intercalate "," colors
    colorsRgbStr := String.intercalate "," (colors.map (fun c => rgbStr (hexToRgb c)))
    usersTotal := userCount
    usersTop := findTop users
    usersLast := lastC.map (fun c => c.user)
    users := users
    themesTotal := themeCount
    themesTop := findTop themes
    themesLast := lastC.bind (fun c => c.metadata.lookup "theme")
    themes := themes
    questions := metaRollup "answer" changesets
    images := metaRollup "add-image" changesets
    points := metaRollup "create" changesets }

/-! Theme resolution (src/MapComplete.ts:79-95, 103-181, 373-422).  Network
effects are shallowly embedded through two oracles: `fetchJson` stands for
`fetch(url)` followed by `.json()` on a theme-definition URL (`none` = a
network or parse failure, which in the source is a thrown exception), and
`fetchColor` stands for `fetch(image)`, `arrayBuffer()` and
`getAverageColor` on an icon URL (`none` = any failure on that path, which
the source catches).  Each resolution function also returns the list of
URLs it fetched, so that "performs no network call" is a statement about
the model. -/

/-- Lexical helper: `s.startsWith(prefix)` via character lists (the library
string primitives do not reduce well in the kernel). -/
def strStartsWith (s pre : String) : Bool :=
  pre.data.isPrefixOf s.data

/-- Character-list model of `s.slice(n)`. -/
def strDrop (s : String) (n : Nat) : String := ⟨s.data.drop n⟩

/-- The `title` field of a theme file: either a plain string or a
locale-to-string mapping (src/@types/MapComplete.ts, and
src/MapComplete.ts:430-446). -/
inductive TitleVal where
  | str (s : String)
  | obj (entries : List (String × String))
deriving DecidableEq, Repr

/-- The part of a theme definition file the code reads: `icon` and `title`
(the `id` of the default tuple at src/MapComplete.ts:403-410 is never read
downstream and is dropped). -/
structure ThemeJson where
  icon : String
  title : TitleVal
deriving DecidableEq, Repr

/-- Model of `MapComplete.determineTitle` (src/MapComplete.ts:431-446):
a string title is returned as is; for an object, the `en` entry is
preferred when present and truthy (a present empty string is falsy in JS
and falls through to the first-key branch), else the value of the first
key.  On an empty object the source yields `undefined`; the model prints
it, a state no claim reaches. -/
def determineTitle (t : TitleVal) : String :=
  match t with
  | .str s => s
  | .obj es =>
    let firstVal := (es.head?.map (fun p => p.2)).getD "undefined"
    match es.lookup "en" with
    | some v => if v = "" then firstVal else v
    | none => firstVal

/-- Result of `getAverageColor`: the hex string and the darkness flag. -/
structure AvgColor where
  hex : String
  isDark : Bool
deriving DecidableEq, Repr

/-- The two network oracles described above. -/
structure FetchEnv where
  fetchJson : String → Option ThemeJson
  fetchColor : String → Option AvgColor

/-- The static color lookup table (src/MapComplete.ts:79-95), in source
order. -/
def themeColors : List (String × String) :=
  [("default", "#70c549"), ("advertising", "#fffe73"), ("aed", "#008855"),
   ("benches", "#896847"), ("cycle_infra", "#f7d728"), ("cyclofix", "#e2783d"),
   ("drinking_water", "#66bef3"), ("grb", "#ffe615"), ("maxspeed", "#e41408"),
   ("natuurpunt", "#93bb0f"), ("onwheels", "#22ca60"), ("personal", "#37d649"),
   ("postboxes", "#ff6242"), ("toerisme_vlaanderen", "#038003"),
   ("trees", "#008000")]

/-- `themeColors["default"]`. -/
def defaultColor : String := "#70c549"

/-- The default icon URL of the host-unresolvable branch
(src/MapComplete.ts:406). -/
def defaultIcon : String :=
  "https://raw.githubusercontent.com/pietervdvn/MapComplete/refs/heads/develop/assets/svg/add.svg"

/-- An entry of the theme cache `mapCompleteThemes`
(src/@types/MapComplete.ts `ExtendedTheme`). -/
structure ExtendedTheme where
  id : String
  title : String
  icon : String
  published : Bool
  color : String
deriving DecidableEq, Repr

/-- Character-list model of `String.prototype.split("/")`. -/
def splitOnSlash (cs : List Char) : List String :=
  match cs with
  | [] => [""]
  | c :: rest =>
    let tail := splitOnSlash rest
    if c = '/' then "" :: tail
    else
      match tail with
      | [] => [⟨[c]⟩]
      | t :: ts => (⟨c :: t.data⟩ : String) :: ts

/-- Model of `host.split("/").slice(4, -1)` (src/MapComplete.ts:395):
drop the first four segments and the last one. -/
def branchSegments (host : String) : List String :=
  ((splitOnSlash host.data).drop 4).dropLast

/-- Model of `MapComplete.getThemeFile` (src/MapComplete.ts:373-422).
Returns the thrown-or-returned result (`Except.error` = an exception
escaping to the caller) together with the list of fetched URLs. -/
def getThemeFile (env : FetchEnv) (theme host : String) :
    Except Unit (ThemeJson × Option String) × List String :=
  let fetchPart (url : String) (baseUrl : Option String) :
      Except Unit (ThemeJson × Option String) × List String :=
    (match env.fetchJson url with
     | some tj => .ok (tj, baseUrl)
     | none => .error (), [url])
  if strStartsWith theme "https://" then
    -- External theme: download it from the given URL directly.
    fetchPart theme (some theme)
  else if strStartsWith host "https://mapcomplete.osm.be/" ||
          strStartsWith host "https://mapcomplete.org/" then
    let baseUrl := "https://raw.githubusercontent.com/pietervdvn/MapComplete/master"
    fetchPart (baseUrl ++ "/assets/themes/" ++ theme ++ "/" ++ theme ++ ".json")
      (some baseUrl)
  else if strStartsWith host "https://pietervdvn.github.io/mc/" then
    let branch := String.intercalate "/" (branchSegments host)
    let baseUrl := "https://raw.githubusercontent.com/pietervdvn/MapComplete/" ++ branch
    fetchPart (baseUrl ++ "/assets/themes/" ++ theme ++ "/" ++ theme ++ ".json")
      (some baseUrl)
  else
    -- Unknown host: default icon and the theme id as title, no fetch.
    -- `baseUrl` is left undefined in the source here.
    (.ok ({ icon := defaultIcon, title := .str theme }, none), [])

/-- JS template interpolation of a possibly-`undefined` string, as in
`${themeDetails.baseUrl}/...`. -/
def jsStrOfOptStr : Option String → String
  | some s => s
  | none => "undefined"

/-- Model of the icon-URL resolution step (src/MapComplete.ts:129-134):
a relative icon (starting with `.`) is resolved against the base URL. -/
def resolveImage (tj : ThemeJson) (baseUrl : Option String) : String :=
  if strStartsWith tj.icon "." then
    jsStrOfOptStr baseUrl ++ "/" ++ strDrop tj.icon 2
  else tj.icon

/-- Model of `MapComplete.getThemeDetails` (src/MapComplete.ts:103-181) for
a changeset with theme `theme` and host `host`, against the current theme
cache `cache` (`mapCompleteThemes`).  `Except.error` models an exception
escaping to the caller; the second component is the list of URLs fetched.
Note that only the icon download (src/MapComplete.ts:143-163) sits in a
`try`/`catch`; an exception from `getThemeFile` propagates. -/
def getThemeDetails (cache : List ExtendedTheme) (env : FetchEnv)
    (theme host : String) : Except Unit ThemeDetails × List String :=
  match cache.find? (fun t => t.id == theme) with
  | some td => (.ok { color := td.color, icon := td.icon, name := td.title }, [])
  | none =>
    match getThemeFile env theme host with
    | (.error e, calls) => (.error e, calls)
    | (.ok (tj, baseUrl), calls) =>
      let image := resolveImage tj baseUrl
      match themeColors.lookup theme with
      | some c =>
        (.ok { color := c, icon := image, name := determineTitle tj.title }, calls)
      | none =>
        match env.fetchColor image with
        | some av =>
          let color := if av.isDark then defaultColor else av.hex
          (.ok { color := color, icon := image, name := determineTitle tj.title },
           calls ++ [image])
        | none =>
          (.ok { color := defaultColor, icon := image, name := determineTitle tj.title },
           calls ++ [image])

/-! Statistics publication (src/index.ts:193-227).  The statistics object is
modelled as a JSON value; `publishStatistics` turns it into the ordered
list of `(topic, payload)` pairs it publishes (every publish is retained,
so the flag carries no information and is dropped).  JS `typeof` classifies
objects, arrays and `null` all as "object"; `Object.entries` enumerates an
the own keys of an object in insertion order, the indices of an array,
and throws a
`TypeError` on `null` — `Except.error` models that throw. -/

/-- JSON value model.  Numbers are integers: every number in the published
statistics is a count or a sum (`NaN`, which a poisoned rollup can produce,
lies outside the scope of this claim). -/
inductive Json where
  | num (n : Int)
  | str (s : String)
  | bool (b : Bool)
  | null
  | arr (xs : List Json)
  | obj (entries : List (String × Json))

/-- Bool-valued test for the `null` value (used to state decidable
hypotheses about statistics objects). -/
def Json.isNull : Json → Bool
  | .null => true
  | _ => false

/-- Minimal JSON string escaping (quote and backslash; the control-character
escapes of full `JSON.stringify` are not needed by the topics and keys in
play). -/
def jsonEscape (s : String) : String :=
  String.join (s.data.map fun c =>
    if c = '"' then "\\\"" else if c = '\\' then "\\\\" else String.singleton c)

mutual

/-- Model of `JSON.stringify` on the value model. -/
def stringify : Json → String
  | .num n => toString n
  | .str s => "\"" ++ jsonEscape s ++ "\""
  | .bool b => if b then "true" else "false"
  | .null => "null"
  | .arr xs => "[" ++ stringifyArr xs ++ "]"
  | .obj es => "\x7b" ++ stringifyObj es ++ "\x7d"

/-- Comma-joined stringification of array elements. -/
def stringifyArr : List Json → String
  | [] => ""
  | [x] => stringify x
  | x :: xs => stringify x ++ "," ++ stringifyArr xs

/-- Comma-joined stringification of object entries. -/
def stringifyObj : List (String × Json) → String
  | [] => ""
  | [(k, v)] => "\"" ++ jsonEscape k ++ "\":" ++ stringify v
  | (k, v) :: es => "\"" ++ jsonEscape k ++ "\":" ++ stringify v ++ "," ++ stringifyObj es

end

/-- Model of `Object.entries(v)` for a value with JS `typeof` "object":
entries of an object, indexed entries of an array, and a `TypeError`
(`none`) on `null`. -/
def jsEntries : Json → Option (List (String × Json))
  | .obj es => some es
  | .arr xs => some ((xs.enum).map (fun p => (toString p.1, p.2)))
  | _ => none

/-- JS `typeof v === "object"` on the value model. -/
def jsTypeofObject : Json → Bool
  | .obj _ => true
  | .arr _ => true
  | .null => true
  | _ => false

/-- JS `typeof v === "number"`. -/
def jsTypeofNumber : Json → Bool
  | .num _ => true
  | _ => false

/-- JS `typeof v === "string"`. -/
def jsTypeofString : Json → Bool
  | .str _ => true
  | _ => false

/-- The root topic of `publishStatistics`. -/
def statsRoot : String := "mapcomplete/statistics"

/-- The messages published for one first-level entry of the statistics
object (the loop body at src/index.ts:201-226): an "object" value has each
of its entries published JSON-encoded under `root/key/subKey` followed by
the whole value under `root/key`; a number is published as its decimal
string; a string is published as itself; anything else is JSON-encoded.
`Object.entries(null)` throws. -/
def pubEntry (key : String) (value : Json) : Except Unit (List (String × String)) :=
  if jsTypeofObject value then
    match jsEntries value with
    | none => .error ()
    | some es =>
      .ok ((es.map (fun p => (statsRoot ++ "/" ++ key ++ "/" ++ p.1, stringify p.2)))
        ++ [(statsRoot ++ "/" ++ key, stringify value)])
  else if jsTypeofNumber value then
    .ok [(statsRoot ++ "/" ++ key, stringify value)]
  else if jsTypeofString value then
    match value with
    | .str s => .ok [(statsRoot ++ "/" ++ key, s)]
    | _ => .ok []
  else
    .ok [(statsRoot ++ "/" ++ key, stringify value)]

/-- The `for` loop of `publishStatistics` over the first-level entries; a
throw from the loop body aborts the remaining iterations, exactly like the
exception would in the source. -/
def pubLoop : List (String × Json) → Except Unit (List (String × String))
  | [] => .ok []
  | (key, value) :: rest =>
    match pubEntry key value, pubLoop rest with
    | .ok msgs, .ok tail => .ok (msgs ++ tail)
    | .error e, _ => .error e
    | .ok _, .error e => .error e

/-- Model of `publishStatistics` (src/index.ts:193-227): the whole object
on the root topic first, then the flattened per-entry messages. -/
def publishStatistics (stats : List (String × Json)) :
    Except Unit (List (String × String)) :=
  match pubLoop stats with
  | .ok tail => .ok ((statsRoot, stringify (.obj stats)) :: tail)
  | .error e => .error e

/-- Modelled from the spec: sanitization as the specification words it —
"slashes replaced with underscores", i.e. EVERY slash becomes an
underscore.  This definition exists only to be compared with
`cleanThemeName`, the translation of the code. -/
def cleanThemeNameSpec (name : String) : String :=
  ⟨name.data.map (fun c => if c = '/' then '_' else c)⟩

/-- Fetch environment in which every theme-definition download (and every
icon download) fails. -/
def envFailJson : FetchEnv := ⟨fun _ => none, fun _ => none⟩

/-- Fetch environment in which theme-definition downloads fail but icon
sampling succeeds with a light color distinct from every table entry. -/
def envColorOk : FetchEnv :=
  ⟨fun _ => none, fun _ => some { hex := "#123456", isDark := false }⟩

/-- Fetch environment in which every theme-definition download succeeds
(with a relative icon) and every icon download fails. -/
def envJsonOk : FetchEnv :=
  ⟨fun _ => some { icon := "./icon.svg", title := .str "T" }, fun _ => none⟩

/-- Total form of `pubEntry`, defined for proofs: it agrees with `pubEntry`
whenever the value is not `null` (the only case in which `pubEntry`
throws). -/
def pubOk (key : String) (value : Json) : List (String × String) :=
  match pubEntry key value with
  | .ok l => l
  | .error _ => []

/-- The changeset list of the day-rollover failing input: two changesets
recorded on 2024-01-15. -/
def c2State : UpdateState :=
  { lastUpdateTime := { year := 2024, month := 1, day := 15, msInDay := 123 }
    changesets := [{ id := 1, uid := "1", user := "u1", metadata := [("theme", "aed")] },
                   { id := 2, uid := "2", user := "u2", metadata := [("theme", "grb")] }] }

/-- The current time of the day-rollover failing input: 2024-02-15, one
calendar month after `c2State.lastUpdateTime`. -/
def c2Now : JsTime := { year := 2024, month := 2, day := 15, msInDay := 456 }

/-- Concrete changeset used by the statistics witness. -/
def c6Changeset : Changeset :=
  { id := 7, uid := "u1", user := "u1", metadata := [("theme", "aed")] }

/-- Constant successful resolver used by the statistics witness. -/
def c6Resolve : Changeset → Option ThemeDetails :=
  fun _ => some { color := "#ff0000", icon := "i", name := "n" }

/-- First changeset of the lastColor counterexample: its resolution
succeeds. -/
def c6First : Changeset :=
  { id := 1, uid := "1", user := "u1", metadata := [("theme", "a")] }

/-- Second (highest-id) changeset of the lastColor counterexample: its
resolution fails. -/
def c6Second : Changeset :=
  { id := 2, uid := "2", user := "u2", metadata := [("theme", "b")] }

/-- Resolver of the lastColor counterexample: succeeds on id 1, fails
(thrown and caught, changeset skipped from the color list) on everything
else. -/
def c6FailResolve : Changeset → Option ThemeDetails :=
  fun c => if c.id = 1 then some { color := "#111111", icon := "i", name := "n" } else none

/-- The color produced by the icon-sampling branch of `getThemeDetails`
(src/MapComplete.ts:143-163) for a given icon URL: the sampled average
color when the download succeeds and the color is light, and the default
fallback color when the download fails OR the sampled color is dark. -/
def sampleColor (env : FetchEnv) (image : String) : String :=
  match env.fetchColor image with
  | some av => if av.isDark then defaultColor else av.hex
  | none => defaultColor

/-! Theorems.  Shared helper lemmas come first, then one theorem per claim
(with its witness or counterexample where required). -/

theorem replaceFirstChar_not_mem {l : List Char} {t r : Char} (h : t ∉ l) :
    replaceFirstChar l t r = l := by
  induction l with
  | nil => rfl
  | cons c cs ih =>
    simp only [List.mem_cons, not_or] at h
    simp [replaceFirstChar, h.1, ih h.2, Ne.symm h.1]

theorem replaceFirstChar_append {l1 l2 : List Char} {t r : Char} (h : t ∉ l1) :
    replaceFirstChar (l1 ++ t :: l2) t r = l1 ++ r :: l2 := by
  induction l1 with
  | nil => simp [replaceFirstChar]
  | cons c cs ih =>
    simp only [List.mem_cons, not_or] at h
    simp [replaceFirstChar, Ne.symm h.1, ih h.2]

/-- C9: the claim says every slash is replaced, so that an id with two or
more slashes contains no slash after sanitization.  The code uses JS
`String.prototype.replace` with a string pattern, which replaces only the
FIRST occurrence: on "a/b/c" it returns "a_b/c", which still contains a
slash and differs from the every-slash reading of the spec. -/
theorem cleanThemeName_counterexample :
    cleanThemeName "a/b/c" = "a_b/c" ∧
    cleanThemeNameSpec "a/b/c" = "a_b_c" ∧
    cleanThemeName "a/b/c" ≠ cleanThemeNameSpec "a/b/c" ∧
    '/' ∈ (cleanThemeName "a/b/c").data := by
  refine ⟨rfl, rfl, by decide, by decide⟩

/-- C9 (amended): the sanitized identifier replaces only the first slash of
the theme id with an underscore — an id with at most one slash contains no
slash afterwards, while later slashes survive. -/
theorem cleanThemeName_first_slash :
    (∀ (l1 l2 : List Char), '/' ∉ l1 →
      cleanThemeName ⟨l1 ++ '/' :: l2⟩ = ⟨l1 ++ '_' :: l2⟩) ∧
    (∀ name : String, '/' ∉ name.data → cleanThemeName name = name) := by
  constructor
  · intro l1 l2 h
    simp [cleanThemeName, replaceFirstChar_append h]
  · intro name h
    cases name with
    | mk data => simp [cleanThemeName, replaceFirstChar_not_mem h]

/-- Witness for `cleanThemeName_first_slash` at a concrete input. -/
theorem cleanThemeName_first_slash_witness :
    cleanThemeName ⟨['a'] ++ '/' :: ['b']⟩ = ⟨['a'] ++ '_' :: ['b']⟩ ∧
    cleanThemeName "ab" = "ab" :=
  ⟨cleanThemeName_first_slash.1 ['a'] ['b'] (by decide),
   cleanThemeName_first_slash.2 "ab" (by decide)⟩

/-- C2: the claim (and the rollover policy of the spec) says the changeset set
is cleared whenever the calendar day has advanced since the stored update
time.  The code compares only `getDate()` — the day-of-month — so when
exactly one calendar month has passed (2024-01-15 to 2024-02-15 here) the
date has advanced but nothing is cleared and no rollover is flagged,
contradicting the stated intent of the code ("Check if the last update time is
still today" / "New day, resetting changesets"). -/
theorem rollover_month_boundary_bug :
    dateOf c2Now ≠ dateOf c2State.lastUpdateTime ∧
    c2State.changesets ≠ [] ∧
    rolloverStep c2Now c2State = (c2State, false) := by
  refine ⟨by decide, by decide, ?_⟩
  rfl

/-- C10: on an empty changeset set the last-changeset URL is NOT null — the
source builds it by template interpolation from the null `lastId`, so it is
the literal string "https://osm.org/changeset/null", while `last` itself is
null. -/
theorem lastUrl_null_sentinel (resolve : Changeset → Option ThemeDetails) :
    (getStatistics resolve []).lastUrl = "https://osm.org/changeset/null" ∧
    (getStatistics resolve []).last = none :=
  ⟨rfl, rfl⟩

theorem foldl_max_mem (v : Int) (vs : List Int) : vs.foldl max v ∈ v :: vs := by
  induction vs generalizing v with
  | nil => simp
  | cons w ws ih =>
    simp only [List.foldl_cons]
    rcases List.mem_cons.mp (ih (max v w)) with h1 | h1
    · rw [h1]
      rcases max_choice v w with hm | hm <;> rw [hm] <;> simp
    · simp [h1]

theorem le_foldl_max (v : Int) (vs : List Int) : ∀ x ∈ v :: vs, x ≤ vs.foldl max v := by
  induction vs generalizing v with
  | nil => intro x hx; simp only [List.mem_singleton] at hx; simp [hx]
  | cons w ws ih =>
    intro x hx
    simp only [List.foldl_cons]
    rcases List.mem_cons.mp hx with h1 | h1
    · subst h1
      exact le_trans (le_max_left x w) (ih (max x w) _ (List.mem_cons_self _ _))
    · rcases List.mem_cons.mp h1 with h2 | h2
      · subst h2
        exact le_trans (le_max_right v x) (ih (max v x) _ (List.mem_cons_self _ _))
      · exact ih (max v w) x (List.mem_cons_of_mem _ h2)

theorem jsMax_eq_iff {l : List Int} (hl : l ≠ []) {x : Int} (hx : x ∈ l) :
    some x = jsMax l ↔ ∀ q ∈ l, q ≤ x := by
  cases l with
  | nil => exact absurd rfl hl
  | cons v vs =>
    simp only [jsMax, Option.some.injEq]
    constructor
    · intro he q hq
      rw [he]
      exact le_foldl_max v vs q hq
    · intro hall
      exact le_antisymm (le_foldl_max v vs x hx) (hall _ (foldl_max_mem v vs))

theorem ite_length_one_intercalate (ks : List String) :
    (if ks.length = 1 then ks.headD "" else String.intercalate ", " ks) =
      String.intercalate ", " ks := by
  match ks with
  | [] => rfl
  | [k] => rfl
  | k1 :: k2 :: kt => simp [List.length_cons]

/-- C4: `findTop` returns the unique key attaining the maximum value when
exactly one key attains it, and otherwise all tied maximum keys joined with
", " in the iteration order of the mapping; in particular
`top({a:3,b:3,c:1}) = "a, b"` and `top({a:5}) = "a"`.  The tied keys are
characterized independently of the implementation, as the entries whose
value bounds every value of the mapping. -/
theorem findTop_spec (item : List (String × Int)) (h : item ≠ []) :
    findTop item = String.intercalate ", "
        ((item.filter (fun p => item.all (fun q => q.2 ≤ p.2))).map (fun p => p.1)) ∧
    (∀ k, (item.filter (fun p => item.all (fun q => q.2 ≤ p.2))).map (fun p => p.1) = [k] →
      findTop item = k) ∧
    findTop [("a", 3), ("b", 3), ("c", 1)] = "a, b" ∧
    findTop [("a", 5)] = "a" := by
  have hfilter :
      item.filter (fun p => decide (some p.2 = jsMax (item.map (fun p => p.2)))) =
        item.filter (fun p => item.all (fun q => q.2 ≤ p.2)) := by
    apply List.filter_congr
    intro p hp
    rw [Bool.eq_iff_iff, decide_eq_true_eq, List.all_eq_true]
    have hmem : p.2 ∈ item.map (fun p => p.2) := List.mem_map_of_mem _ hp
    have hne : item.map (fun p => p.2) ≠ [] := by
      simp only [ne_eq, List.map_eq_nil_iff]
      exact h
    rw [jsMax_eq_iff hne hmem]
    constructor
    · intro hall q hq
      exact decide_eq_true (hall q.2 (List.mem_map_of_mem _ hq))
    · intro hall q hq
      obtain ⟨r, hr, hrq⟩ := List.mem_map.mp hq
      exact hrq ▸ of_decide_eq_true (hall r hr)
  have hmain : findTop item = String.intercalate ", "
      ((item.filter (fun p => item.all (fun q => q.2 ≤ p.2))).map (fun p => p.1)) := by
    simp only [findTop]
    rw [hfilter, ite_length_one_intercalate]
  refine ⟨hmain, ?_, by decide, rfl⟩
  intro k hk
  rw [hmain, hk]
  rfl

/-- Witness for `findTop_spec` at the two concrete inputs of the claim. -/
theorem findTop_spec_witness :
    findTop [("a", 3), ("b", 3), ("c", 1)] = "a, b" ∧ findTop [("a", 5)] = "a" :=
  ⟨(findTop_spec [("a", 3), ("b", 3), ("c", 1)] (by decide)).2.2.1,
   (findTop_spec [("a", 5)] (by decide)).2.2.2⟩

theorem rollup_foldl (field : String) (cs : List Changeset) :
    ∀ a : Int,
      (∀ c ∈ cs, ∀ v, c.metadata.lookup field = some v → (parseIntJS v).isSome) →
      cs.foldl (rollupStep field) (some a) = some (a + rollupSpec field cs) := by
  induction cs with
  | nil => intro a _; simp [rollupSpec]
  | cons c cs ih =>
    intro a h
    have hc := h c (List.mem_cons_self _ _)
    have hrest : ∀ x ∈ cs, ∀ v, x.metadata.lookup field = some v → (parseIntJS v).isSome :=
      fun x hx => h x (List.mem_cons_of_mem _ hx)
    simp only [List.foldl_cons]
    cases hl : c.metadata.lookup field with
    | none =>
      rw [show rollupStep field (some a) c = some a by simp [rollupStep, hl]]
      rw [ih a hrest]
      simp [rollupSpec, hl]
    | some v =>
      have hs := hc v hl
      obtain ⟨n, hn⟩ := Option.isSome_iff_exists.mp hs
      rw [show rollupStep field (some a) c = some (a + n) by simp [rollupStep, hl, hn]]
      rw [ih (a + n) hrest]
      simp only [rollupSpec, List.map_cons, List.sum_cons, hl, hn, Option.getD_some,
        Option.some.injEq]
      omega

/-- C3 counterexample: the claim says a changeset whose counter value is
not parseable as an integer contributes 0 to the rollup.  In the code,
`parseInt("abc")` is `NaN` and `acc + NaN` is `NaN`, so one unparsable
value poisons the entire sum instead of contributing 0: with values "abc"
and "2" the code yields `NaN` (modelled as `none`) where the claim demands
2. -/
theorem metaRollup_counterexample :
    metaRollup "answer"
        [{ id := 1, uid := "1", user := "u", metadata := [("answer", "abc")] },
         { id := 2, uid := "2", user := "u", metadata := [("answer", "2")] }] = none ∧
    rollupSpec "answer"
        [{ id := 1, uid := "1", user := "u", metadata := [("answer", "abc")] },
         { id := 2, uid := "2", user := "u", metadata := [("answer", "2")] }] = 2 ∧
    metaRollup "answer"
        [{ id := 1, uid := "1", user := "u", metadata := [("answer", "abc")] },
         { id := 2, uid := "2", user := "u", metadata := [("answer", "2")] }] ≠
      some (rollupSpec "answer"
        [{ id := 1, uid := "1", user := "u", metadata := [("answer", "abc")] },
         { id := 2, uid := "2", user := "u", metadata := [("answer", "2")] }]) := by
  refine ⟨rfl, by decide, by decide⟩

/-- C3 (amended): a changeset missing the field contributes 0 and the
aggregation never crashes; when every present counter value parses as an
integer the rollup equals the sum of the parsed values (missing fields
contributing 0), but a single unparsable value turns the whole rollup into
`NaN` rather than contributing 0. -/
theorem metaRollup_sum (field : String) (cs : List Changeset)
    (h : ∀ c ∈ cs, ∀ v, c.metadata.lookup field = some v → (parseIntJS v).isSome) :
    metaRollup field cs = some (rollupSpec field cs) := by
  have := rollup_foldl field cs 0 h
  simpa [metaRollup] using this

/-- Witness for `metaRollup_sum`: the numeric-rollup scenario of the spec
(values "2", "1" and a missing field sum to 3). -/
theorem metaRollup_sum_witness :
    metaRollup "add-image"
        [{ id := 1, uid := "1", user := "u", metadata := [("add-image", "2")] },
         { id := 2, uid := "2", user := "u", metadata := [("add-image", "1")] },
         { id := 3, uid := "3", user := "u", metadata := [] }] =
      some (rollupSpec "add-image"
        [{ id := 1, uid := "1", user := "u", metadata := [("add-image", "2")] },
         { id := 2, uid := "2", user := "u", metadata := [("add-image", "1")] },
         { id := 3, uid := "3", user := "u", metadata := [] }]) ∧
    rollupSpec "add-image"
        [{ id := 1, uid := "1", user := "u", metadata := [("add-image", "2")] },
         { id := 2, uid := "2", user := "u", metadata := [("add-image", "1")] },
         { id := 3, uid := "3", user := "u", metadata := [] }] = 3 :=
  ⟨metaRollup_sum "add-image" _ (by decide), by decide⟩

theorem ingestOne_nodup {acc : List Changeset} {c : Changeset}
    (h : (acc.map Changeset.id).Nodup) : ((ingestOne acc c).map Changeset.id).Nodup := by
  unfold ingestOne
  split
  · exact h
  · next hany =>
    rw [Bool.not_eq_true, List.any_eq_false] at hany
    rw [List.map_append, List.nodup_append]
    refine ⟨h, List.nodup_singleton _, ?_⟩
    intro x hx hxc
    simp only [List.map_cons, List.map_nil, List.mem_singleton] at hxc
    obtain ⟨y, hy, hyx⟩ := List.mem_map.mp hx
    exact hany y hy (by simp [hyx, hxc])

theorem foldl_ingestOne_nodup (fetched : List Changeset) :
    ∀ prior, (prior.map Changeset.id).Nodup →
      ((fetched.foldl ingestOne prior).map Changeset.id).Nodup := by
  induction fetched with
  | nil => intro prior h; exact h
  | cons c cs ih => intro prior h; exact ih _ (ingestOne_nodup h)

/-- C5: from any prior state whose ids are pairwise distinct, ingesting any
fetched sequence (repeats of stored ids and repeats within the sequence
included) yields a changeset array whose ids are pairwise distinct and
which is strictly ascending by id. -/
theorem ingest_nodup_sorted (prior fetched : List Changeset)
    (h : (prior.map Changeset.id).Nodup) :
    ((ingest prior fetched).map Changeset.id).Nodup ∧
    (ingest prior fetched).Pairwise (fun a b => a.id < b.id) := by
  have hnd : ((fetched.foldl ingestOne prior).map Changeset.id).Nodup :=
    foldl_ingestOne_nodup fetched prior h
  have hperm : (ingest prior fetched).Perm (fetched.foldl ingestOne prior) :=
    List.perm_insertionSort idLe _
  have hnd2 : ((ingest prior fetched).map Changeset.id).Nodup :=
    ((hperm.map Changeset.id).nodup_iff).mpr hnd
  have hsorted : (ingest prior fetched).Pairwise idLe :=
    List.sorted_insertionSort idLe _
  have hne : (ingest prior fetched).Pairwise (fun a b => a.id ≠ b.id) :=
    List.pairwise_map.mp hnd2
  exact ⟨hnd2, (hsorted.and hne).imp (fun hab => lt_of_le_of_ne hab.1 hab.2)⟩

/-- Witness for `ingest_nodup_sorted`: a stored array with id 5 and a fetch
result repeating ids 3 and 5. -/
theorem ingest_nodup_sorted_witness :
    (((ingest [{ id := 5, uid := "a", user := "a", metadata := [] }]
        [{ id := 3, uid := "b", user := "b", metadata := [] },
         { id := 5, uid := "x", user := "x", metadata := [] },
         { id := 3, uid := "c", user := "c", metadata := [] },
         { id := 9, uid := "d", user := "d", metadata := [] }]).map
      Changeset.id).Nodup ∧
    (ingest [{ id := 5, uid := "a", user := "a", metadata := [] }]
        [{ id := 3, uid := "b", user := "b", metadata := [] },
         { id := 5, uid := "x", user := "x", metadata := [] },
         { id := 3, uid := "c", user := "c", metadata := [] },
         { id := 9, uid := "d", user := "d", metadata := [] }]).Pairwise
      (fun a b => a.id < b.id)) :=
  ingest_nodup_sorted _ _ (by decide)

theorem filterMap_getLast_of_isSome {α β : Type _} (f : α → Option β) :
    ∀ (l : List α) (a : α), l.getLast? = some a → (f a).isSome →
      (l.filterMap f).getLast? = f a := by
  intro l
  induction l with
  | nil => intro a ha _; simp at ha
  | cons x xs ih =>
    intro a ha hs
    cases xs with
    | nil =>
      simp only [List.getLast?_singleton, Option.some.injEq] at ha
      subst ha
      obtain ⟨b, hb⟩ := Option.isSome_iff_exists.mp hs
      simp [List.filterMap_cons, hb]
    | cons y ys =>
      rw [List.getLast?_cons_cons] at ha
      have hmem : a ∈ y :: ys := List.mem_of_mem_getLast? (Option.mem_def.mpr ha)
      obtain ⟨b, hb⟩ := Option.isSome_iff_exists.mp hs
      have hne : (y :: ys).filterMap f ≠ [] := by
        intro hcon
        have hbm : b ∈ (y :: ys).filterMap f := List.mem_filterMap.mpr ⟨a, hmem, hb⟩
        rw [hcon] at hbm
        simp at hbm
      rw [List.filterMap_cons]
      cases hfx : f x with
      | none =>
        show ((y :: ys).filterMap f).getLast? = f a
        exact ih a ha hs
      | some bx =>
        show (bx :: (y :: ys).filterMap f).getLast? = f a
        have hih := ih a ha hs
        cases hfm : (y :: ys).filterMap f with
        | nil => exact absurd hfm hne
        | cons z zs =>
          rw [List.getLast?_cons_cons]
          rw [hfm] at hih
          exact hih

theorem pairwise_idLe_getLast :
    ∀ (l : List Changeset) (lc : Changeset),
      l.Pairwise idLe → l.getLast? = some lc → ∀ b ∈ l, b.id ≤ lc.id := by
  intro l
  induction l with
  | nil => intro lc _ hl; simp at hl
  | cons c rest ih =>
    intro lc hp hl b hb
    cases rest with
    | nil =>
      simp only [List.getLast?_singleton, Option.some.injEq] at hl
      simp only [List.mem_singleton] at hb
      subst hl
      subst hb
      exact le_refl _
    | cons d rest2 =>
      rw [List.getLast?_cons_cons] at hl
      obtain ⟨hhead, htail⟩ := List.pairwise_cons.mp hp
      rcases List.mem_cons.mp hb with hb1 | hb2
      · subst hb1
        exact hhead lc (List.mem_of_mem_getLast? (Option.mem_def.mpr hl))
      · exact ih lc htail hl b hb2

/-- C6 counterexample: the claim says that on a non-empty set the "last"
fields reflect the highest-id changeset of the sorted set.  The code takes
`lastColor` from `colors[colors.length - 1]` (src/MapComplete.ts:311),
and a changeset whose resolution fails is skipped from `colors`
(src/MapComplete.ts:249-252) while remaining in the set: when the
resolution of the highest-id changeset (id 2) fails, `lastColor` is the
color of the EARLIER changeset (id 1), not a value of the highest-id one. -/
theorem getStatistics_lastColor_counterexample :
    ([c6First, c6Second] : List Changeset).Pairwise idLe ∧
    (getStatistics c6FailResolve [c6First, c6Second]).last = some c6Second.id ∧
    c6FailResolve c6Second = none ∧
    (getStatistics c6FailResolve [c6First, c6Second]).lastColor =
      (c6FailResolve c6First).map (fun d => d.color) ∧
    (getStatistics c6FailResolve [c6First, c6Second]).lastColor = some "#111111" ∧
    (c6FailResolve c6First).map (fun d => d.color) ≠
      (c6FailResolve c6Second).map (fun d => d.color) := by
  refine ⟨by decide, rfl, rfl, rfl, rfl, by decide⟩

/-- C6 (amended): on an empty changeset set every "last" field (`last`,
`usersLast`, `themesLast`, `lastColor`, `lastColorRgb`) is null together
and the three totals are 0.  On a non-empty sorted set — within the region
where at least one resolution succeeds, since with every resolution failed
the source throws inside `hexToRgb` on the absent color — `lastId`,
`lastUser` and `lastTheme` always come from the final, maximal-id
changeset, but `lastColor` and `lastColorRgb` reflect that changeset only
when its OWN resolution succeeded; when it failed they carry the color of
an earlier changeset (see the counterexample). -/
theorem getStatistics_last_fields :
    (∀ resolve : Changeset → Option ThemeDetails,
      (getStatistics resolve []).last = none ∧
      (getStatistics resolve []).usersLast = none ∧
      (getStatistics resolve []).themesLast = none ∧
      (getStatistics resolve []).lastColor = none ∧
      (getStatistics resolve []).lastColorRgb = none ∧
      (getStatistics resolve []).total = 0 ∧
      (getStatistics resolve []).usersTotal = 0 ∧
      (getStatistics resolve []).themesTotal = 0) ∧
    (∀ (resolve : Changeset → Option ThemeDetails) (cs : List Changeset),
      cs ≠ [] → (∃ c ∈ cs, (resolve c).isSome) → cs.Pairwise idLe →
      ∃ lc, cs.getLast? = some lc ∧ (∀ b ∈ cs, b.id ≤ lc.id) ∧
        (getStatistics resolve cs).last = some lc.id ∧
        (getStatistics resolve cs).usersLast = some lc.user ∧
        (getStatistics resolve cs).themesLast = lc.metadata.lookup "theme" ∧
        ((resolve lc).isSome →
          (getStatistics resolve cs).lastColor = (resolve lc).map (fun d => d.color) ∧
          (getStatistics resolve cs).lastColorRgb =
            ((resolve lc).map (fun d => d.color)).map hexToRgb)) := by
  constructor
  · intro resolve
    exact ⟨rfl, rfl, rfl, rfl, rfl, rfl, rfl, rfl⟩
  · intro resolve cs h1 _ h3
    obtain ⟨lc, hlast⟩ :=
      Option.isSome_iff_exists.mp (List.getLast?_isSome.mpr h1)
    refine ⟨lc, hlast, pairwise_idLe_getLast cs lc h3 hlast, ?_, ?_, ?_, ?_⟩
    · simp [getStatistics, hlast]
    · simp [getStatistics, hlast]
    · simp [getStatistics, hlast]
    · intro hsucc
      obtain ⟨dd, hdd⟩ := Option.isSome_iff_exists.mp hsucc
      have hcol : (cs.filterMap (fun c => (resolve c).map (fun d => d.color))).getLast? =
          (resolve lc).map (fun d => d.color) :=
        filterMap_getLast_of_isSome _ cs lc hlast (by simp [hdd])
      constructor
      · simp [getStatistics, hlast, hcol]
      · simp [getStatistics, hlast, hcol]

/-- Witness for `getStatistics_last_fields` at a singleton changeset list
and a successful resolver. -/
theorem getStatistics_last_fields_witness :
    ∃ lc,
      ([c6Changeset] : List Changeset).getLast? = some lc ∧
      (∀ b ∈ ([c6Changeset] : List Changeset), b.id ≤ lc.id) ∧
      (getStatistics c6Resolve [c6Changeset]).last = some lc.id ∧
      (getStatistics c6Resolve [c6Changeset]).usersLast = some lc.user ∧
      (getStatistics c6Resolve [c6Changeset]).themesLast = lc.metadata.lookup "theme" ∧
      ((c6Resolve lc).isSome →
        (getStatistics c6Resolve [c6Changeset]).lastColor =
          (c6Resolve lc).map (fun d => d.color) ∧
        (getStatistics c6Resolve [c6Changeset]).lastColorRgb =
          ((c6Resolve lc).map (fun d => d.color)).map hexToRgb) :=
  getStatistics_last_fields.2 c6Resolve [c6Changeset]
    (by decide) ⟨c6Changeset, List.mem_singleton.mpr rfl, rfl⟩ (by decide)

theorem getThemeFile_ok (env : FetchEnv) (theme host : String)
    (h : ∀ u, (env.fetchJson u).isSome) :
    ∃ tj bu calls, getThemeFile env theme host = (.ok (tj, bu), calls) := by
  unfold getThemeFile
  split_ifs with h1 h2 h3 <;> dsimp only
  · rcases Option.isSome_iff_exists.mp (h theme) with ⟨tj, htj⟩
    exact ⟨tj, _, _, by rw [htj]⟩
  · rcases Option.isSome_iff_exists.mp (h _) with ⟨tj, htj⟩
    exact ⟨tj, _, _, by rw [htj]⟩
  · rcases Option.isSome_iff_exists.mp (h _) with ⟨tj, htj⟩
    exact ⟨tj, _, _, by rw [htj]⟩
  · exact ⟨{ icon := defaultIcon, title := .str theme }, none, [], rfl⟩

/-- C1 counterexample: the claim says theme-detail resolution never throws
to its caller, returning defaults on any network or parse failure.  Only
the icon download is guarded by a `try`/`catch`; a failing fetch (or JSON
parse) of the theme definition itself propagates out of `getThemeDetails`,
as here for an uncached theme on the official host with a failing
network. -/
theorem getThemeDetails_throws_counterexample :
    (getThemeDetails [] envFailJson "foo" "https://mapcomplete.org/").1 =
      Except.error () := by
  rfl

/-- C1 (amended): theme-detail resolution never throws PROVIDED the
theme-definition fetch and parse succeed — with the theme file in hand
every icon failure is caught, and when the icon download fails the default
fallback color is returned; a network or parse failure while fetching the
theme definition itself, however, propagates to the caller (which catches
it in `getStatistics` and skips the changeset). -/
theorem getThemeDetails_no_throw :
    (∀ (cache : List ExtendedTheme) (env : FetchEnv) (theme host : String),
      (∀ u, (env.fetchJson u).isSome) →
      ∃ d, (getThemeDetails cache env theme host).1 = Except.ok d) ∧
    (∀ (cache : List ExtendedTheme) (env : FetchEnv) (theme host : String),
      cache.find? (fun t => t.id == theme) = none →
      themeColors.lookup theme = none →
      (∀ u, (env.fetchJson u).isSome) →
      (∀ u, env.fetchColor u = none) →
      ∃ d, (getThemeDetails cache env theme host).1 = Except.ok d ∧
        d.color = defaultColor) := by
  constructor
  · intro cache env theme host h
    cases hfind : cache.find? (fun t => t.id == theme) with
    | some td =>
      exact ⟨{ color := td.color, icon := td.icon, name := td.title },
        by simp [getThemeDetails, hfind]⟩
    | none =>
      obtain ⟨tj, bu, calls, hgf⟩ := getThemeFile_ok env theme host h
      cases hlk : themeColors.lookup theme with
      | some c =>
        exact ⟨⟨c, resolveImage tj bu, determineTitle tj.title⟩,
          by simp [getThemeDetails, hfind, hgf, hlk]⟩
      | none =>
        cases hfc : env.fetchColor (resolveImage tj bu) with
        | some av =>
          exact ⟨⟨if av.isDark then defaultColor else av.hex, resolveImage tj bu,
            determineTitle tj.title⟩,
            by simp [getThemeDetails, hfind, hgf, hlk, hfc]⟩
        | none =>
          exact ⟨⟨defaultColor, resolveImage tj bu, determineTitle tj.title⟩,
            by simp [getThemeDetails, hfind, hgf, hlk, hfc]⟩
  · intro cache env theme host hfind hlk h hcol
    obtain ⟨tj, bu, calls, hgf⟩ := getThemeFile_ok env theme host h
    refine ⟨⟨defaultColor, resolveImage tj bu, determineTitle tj.title⟩, ?_, rfl⟩
    simp [getThemeDetails, hfind, hgf, hlk, hcol (resolveImage tj bu)]

/-- Witness for `getThemeDetails_no_throw` with an always-succeeding
theme-definition fetch and an always-failing icon fetch. -/
theorem getThemeDetails_no_throw_witness :
    (∃ d, (getThemeDetails [] envJsonOk "foo" "https://mapcomplete.org/").1 =
      Except.ok d) ∧
    (∃ d, (getThemeDetails [] envJsonOk "foo" "https://mapcomplete.org/").1 =
      Except.ok d ∧ d.color = defaultColor) :=
  ⟨getThemeDetails_no_throw.1 [] envJsonOk "foo" "https://mapcomplete.org/"
      (fun _ => rfl),
   getThemeDetails_no_throw.2 [] envJsonOk "foo" "https://mapcomplete.org/"
      rfl (by decide) (fun _ => rfl) (fun _ => rfl)⟩

/-- C8 counterexample: the claim says that for a theme id that is not a URL
on an unknown host, resolution returns the default color with NO network
call.  The theme-file download is indeed skipped, but for a theme absent
from the static color table the code then downloads the default icon image
to sample a color: one network call is made, and the returned color is the
sampled one ("#123456" here), not the default. -/
theorem unknownHost_network_call_counterexample :
    (getThemeDetails [] envColorOk "foo" "https://example.com/").2 =
      [defaultIcon] ∧
    (getThemeDetails [] envColorOk "foo" "https://example.com/").1 =
      Except.ok { color := "#123456", icon := defaultIcon, name := "foo" } ∧
    "#123456" ≠ defaultColor := by
  refine ⟨rfl, rfl, by decide⟩

/-- C8 (amended): for a theme id that is not a fully-qualified URL and a
host matching none of the known patterns, the theme-definition fetch is
short-circuited: the icon is the default icon URL and the title is the
theme id.  If the theme id has a predefined color in the lookup table that
color is returned with no network call at all; otherwise the default icon
image is downloaded to sample a color (exactly one network call), a
successfully sampled light color is returned as is, and the default
fallback color is returned exactly when the download fails or the sampled
color is dark — the complete color outcome is `sampleColor`. -/
theorem unknownHost_default_tuple (cache : List ExtendedTheme) (env : FetchEnv)
    (theme host : String)
    (h1 : strStartsWith theme "https://" = false)
    (h2 : strStartsWith host "https://mapcomplete.osm.be/" = false)
    (h3 : strStartsWith host "https://mapcomplete.org/" = false)
    (h4 : strStartsWith host "https://pietervdvn.github.io/mc/" = false)
    (h5 : cache.find? (fun t => t.id == theme) = none) :
    getThemeFile env theme host =
      (.ok ({ icon := defaultIcon, title := .str theme }, none), []) ∧
    (∀ c, themeColors.lookup theme = some c →
      getThemeDetails cache env theme host =
        (.ok { color := c, icon := defaultIcon, name := theme }, [])) ∧
    (themeColors.lookup theme = none →
      getThemeDetails cache env theme host =
        (.ok ⟨sampleColor env defaultIcon, defaultIcon, theme⟩, [defaultIcon])) := by
  have hgf : getThemeFile env theme host =
      (.ok ({ icon := defaultIcon, title := .str theme }, none), []) := by
    simp [getThemeFile, h1, h2, h3, h4]
  have himg : resolveImage { icon := defaultIcon, title := .str theme } none =
      defaultIcon := by
    simp [resolveImage, show strStartsWith defaultIcon "." = false from by decide]
  refine ⟨hgf, ?_, ?_⟩
  · intro c hc
    simp [getThemeDetails, h5, hgf, hc, himg, determineTitle]
  · intro hnone
    cases hfc : env.fetchColor defaultIcon with
    | some av =>
      simp [getThemeDetails, h5, hgf, hnone, himg, hfc, determineTitle,
        sampleColor]
    | none =>
      simp [getThemeDetails, h5, hgf, hnone, himg, hfc, determineTitle,
        sampleColor]

/-- Witness for `unknownHost_default_tuple` at the uncached theme "foo" on
an unknown host with a failing network (where `sampleColor` is the default
fallback color). -/
theorem unknownHost_default_tuple_witness :
    (getThemeFile envFailJson "foo" "https://example.com/" =
      (.ok ({ icon := defaultIcon, title := .str "foo" }, none), []) ∧
    (∀ c, themeColors.lookup "foo" = some c →
      getThemeDetails [] envFailJson "foo" "https://example.com/" =
        (.ok { color := c, icon := defaultIcon, name := "foo" }, [])) ∧
    (themeColors.lookup "foo" = none →
      getThemeDetails [] envFailJson "foo" "https://example.com/" =
        (.ok ⟨sampleColor envFailJson defaultIcon, defaultIcon, "foo"⟩,
          [defaultIcon]))) ∧
    sampleColor envFailJson defaultIcon = defaultColor :=
  ⟨unknownHost_default_tuple [] envFailJson "foo" "https://example.com/"
      (by decide) (by decide) (by decide) (by decide) rfl,
   rfl⟩

theorem pubEntry_ok (key : String) (value : Json) (h : value.isNull = false) :
    pubEntry key value = .ok (pubOk key value) := by
  cases value with
  | null => simp [Json.isNull] at h
  | num n => rfl
  | str s => rfl
  | bool b => rfl
  | arr xs => rfl
  | obj es => rfl

theorem pubLoop_eq (stats : List (String × Json))
    (h : ∀ p ∈ stats, p.2.isNull = false) :
    pubLoop stats = .ok (stats.flatMap (fun p => pubOk p.1 p.2)) := by
  induction stats with
  | nil => rfl
  | cons p rest ih =>
    obtain ⟨k, v⟩ := p
    have h1 : v.isNull = false := h (k, v) (List.mem_cons_self _ _)
    have hrest : ∀ q ∈ rest, q.2.isNull = false :=
      fun q hq => h q (List.mem_cons_of_mem _ hq)
    simp only [pubLoop, pubEntry_ok k v h1, ih hrest, List.flatMap_cons]

/-- C7: on any statistics object (none of whose first-level values is
`null` — the only value `Object.entries` rejects, and one that never occurs
at the first level of the real statistics object), `publishStatistics`
publishes the whole object first on the root topic; each first-level
mapping value has every entry published JSON-encoded under
`root/key/subKey` and the whole mapping under `root/key`; numeric and
string values are published in plain string form under `root/key`; and
every published topic is the root, a first-level `root/key`, or a
second-level `root/key/subKey` — recursion stops at exactly two levels, so
third-level nesting never receives its own topic. -/
theorem publishStatistics_flatten (stats : List (String × Json))
    (hnull : ∀ p ∈ stats, p.2.isNull = false) :
    ∃ out, publishStatistics stats = .ok out ∧
      out.head? = some (statsRoot, stringify (.obj stats)) ∧
      (∀ k es, (k, Json.obj es) ∈ stats →
        (∀ q ∈ es, (statsRoot ++ "/" ++ k ++ "/" ++ q.1, stringify q.2) ∈ out) ∧
        (statsRoot ++ "/" ++ k, stringify (Json.obj es)) ∈ out) ∧
      (∀ k n, (k, Json.num n) ∈ stats →
        (statsRoot ++ "/" ++ k, toString n) ∈ out) ∧
      (∀ k s, (k, Json.str s) ∈ stats → (statsRoot ++ "/" ++ k, s) ∈ out) ∧
      (∀ t p, (t, p) ∈ out →
        t = statsRoot ∨
        (∃ k v, (k, v) ∈ stats ∧ t = statsRoot ++ "/" ++ k) ∨
        (∃ k v es sk sv, (k, v) ∈ stats ∧ jsEntries v = some es ∧
          (sk, sv) ∈ es ∧ t = statsRoot ++ "/" ++ k ++ "/" ++ sk)) := by
  refine ⟨(statsRoot, stringify (.obj stats)) ::
      stats.flatMap (fun p => pubOk p.1 p.2), ?_, rfl, ?_, ?_, ?_, ?_⟩
  · simp [publishStatistics, pubLoop_eq stats hnull]
  · intro k es hmem
    constructor
    · intro q hq
      apply List.mem_cons_of_mem
      rw [List.mem_flatMap]
      refine ⟨(k, Json.obj es), hmem, ?_⟩
      show _ ∈ pubOk k (Json.obj es)
      rw [show pubOk k (Json.obj es) =
        (es.map (fun q => (statsRoot ++ "/" ++ k ++ "/" ++ q.1, stringify q.2))) ++
          [(statsRoot ++ "/" ++ k, stringify (Json.obj es))] from rfl]
      exact List.mem_append_left _ (List.mem_map_of_mem _ hq)
    · apply List.mem_cons_of_mem
      rw [List.mem_flatMap]
      refine ⟨(k, Json.obj es), hmem, ?_⟩
      show _ ∈ pubOk k (Json.obj es)
      rw [show pubOk k (Json.obj es) =
        (es.map (fun q => (statsRoot ++ "/" ++ k ++ "/" ++ q.1, stringify q.2))) ++
          [(statsRoot ++ "/" ++ k, stringify (Json.obj es))] from rfl]
      exact List.mem_append_right _ (List.mem_singleton.mpr rfl)
  · intro k n hmem
    apply List.mem_cons_of_mem
    rw [List.mem_flatMap]
    exact ⟨(k, Json.num n), hmem, List.mem_singleton.mpr rfl⟩
  · intro k s hmem
    apply List.mem_cons_of_mem
    rw [List.mem_flatMap]
    exact ⟨(k, Json.str s), hmem, List.mem_singleton.mpr rfl⟩
  · intro t p hmem
    rcases List.mem_cons.mp hmem with h0 | h0
    · exact Or.inl (congrArg Prod.fst h0)
    · rw [List.mem_flatMap] at h0
      obtain ⟨⟨k, v⟩, hkv, hmem2⟩ := h0
      cases v with
      | null => exact absurd hmem2 (by simp [pubOk, pubEntry, jsTypeofObject, jsEntries])
      | num n =>
        rcases List.mem_singleton.mp hmem2 with h2
        exact Or.inr (Or.inl ⟨k, Json.num n, hkv, congrArg Prod.fst h2⟩)
      | str s =>
        rcases List.mem_singleton.mp hmem2 with h2
        exact Or.inr (Or.inl ⟨k, Json.str s, hkv, congrArg Prod.fst h2⟩)
      | bool b =>
        rcases List.mem_singleton.mp hmem2 with h2
        exact Or.inr (Or.inl ⟨k, Json.bool b, hkv, congrArg Prod.fst h2⟩)
      | obj es =>
        rw [show pubOk k (Json.obj es) =
          (es.map (fun q => (statsRoot ++ "/" ++ k ++ "/" ++ q.1, stringify q.2))) ++
            [(statsRoot ++ "/" ++ k, stringify (Json.obj es))] from rfl] at hmem2
        rcases List.mem_append.mp hmem2 with h2 | h2
        · obtain ⟨⟨sk, sv⟩, hsk, heq⟩ := List.mem_map.mp h2
          exact Or.inr (Or.inr ⟨k, Json.obj es, es, sk, sv, hkv, rfl, hsk,
            (congrArg Prod.fst heq).symm⟩)
        · exact Or.inr (Or.inl ⟨k, Json.obj es, hkv,
            congrArg Prod.fst (List.mem_singleton.mp h2)⟩)
      | arr xs =>
        rw [show pubOk k (Json.arr xs) =
          ((xs.enum.map (fun p => (toString p.1, p.2))).map
            (fun q => (statsRoot ++ "/" ++ k ++ "/" ++ q.1, stringify q.2))) ++
              [(statsRoot ++ "/" ++ k, stringify (Json.arr xs))] from rfl] at hmem2
        rcases List.mem_append.mp hmem2 with h2 | h2
        · obtain ⟨⟨sk, sv⟩, hsk, heq⟩ := List.mem_map.mp h2
          refine Or.inr (Or.inr ⟨k, Json.arr xs, xs.enum.map (fun p => (toString p.1, p.2)),
            sk, sv, hkv, ?_, hsk, (congrArg Prod.fst heq).symm⟩)
          rfl
        · exact Or.inr (Or.inl ⟨k, Json.arr xs, hkv,
            congrArg Prod.fst (List.mem_singleton.mp h2)⟩)

/-- Witness for `publishStatistics_flatten` at a small statistics object
with one mapping value, one number and one string. -/
theorem publishStatistics_flatten_witness :
    ∃ out, publishStatistics
        [("changesets", .obj [("total", .num 2), ("last", .null)]),
         ("questions", .num 5), ("top", .str "u1")] = .ok out ∧
      out.head? = some (statsRoot, stringify
        (.obj [("changesets", .obj [("total", .num 2), ("last", .null)]),
               ("questions", .num 5), ("top", .str "u1")])) ∧
      (∀ k es, (k, Json.obj es) ∈
          [("changesets", Json.obj [("total", Json.num 2), ("last", Json.null)]),
           ("questions", Json.num 5), ("top", Json.str "u1")] →
        (∀ q ∈ es, (statsRoot ++ "/" ++ k ++ "/" ++ q.1, stringify q.2) ∈ out) ∧
        (statsRoot ++ "/" ++ k, stringify (Json.obj es)) ∈ out) ∧
      (∀ k n, (k, Json.num n) ∈
          [("changesets", Json.obj [("total", Json.num 2), ("last", Json.null)]),
           ("questions", Json.num 5), ("top", Json.str "u1")] →
        (statsRoot ++ "/" ++ k, toString n) ∈ out) ∧
      (∀ k s, (k, Json.str s) ∈
          [("changesets", Json.obj [("total", Json.num 2), ("last", Json.null)]),
           ("questions", Json.num 5), ("top", Json.str "u1")] →
        (statsRoot ++ "/" ++ k, s) ∈ out) ∧
      (∀ t p, (t, p) ∈ out →
        t = statsRoot ∨
        (∃ k v, (k, v) ∈
          [("changesets", Json.obj [("total", Json.num 2), ("last", Json.null)]),
           ("questions", Json.num 5), ("top", Json.str "u1")] ∧
          t = statsRoot ++ "/" ++ k) ∨
        (∃ k v es sk sv, (k, v) ∈
          [("changesets", Json.obj [("total", Json.num 2), ("last", Json.null)]),
           ("questions", Json.num 5), ("top", Json.str "u1")] ∧
          jsEntries v = some es ∧ (sk, sv) ∈ es ∧
          t = statsRoot ++ "/" ++ k ++ "/" ++ sk)) :=
  publishStatistics_flatten
    [("changesets", .obj [("total", .num 2), ("last", .null)]),
     ("questions", .num 5), ("top", .str "u1")]
    (by decide)

end MCMqtt
